import Mathlib

/-!
Shallow embedding of the `UserService` entity cache and fetch coordinator
from `src/moderatelyTestable.ts`, together with proofs about its caching,
de-duplication, fallback, merging and scoring behaviour.

Modelling conventions:
* JavaScript `Date` values are modelled as `Int` milliseconds since epoch
  (`Date.now()` and `date.getTime()` both yield such a number).
* `Map<string, User>` is modelled as an association list consulted with
  `List.lookup`; `map.set` conses the new binding in front, which gives the
  same lookup behaviour as overwriting.
* The string-valued persistent store is modelled at the JSON-value level:
  a stored cell is either a serialized user object (the only thing
  `saveUserToStorage` ever writes, via `JSON.stringify`) or an
  unparseable blob (`JSON.parse` throws on it).  `getItem`/`setItem` may
  also throw; the environment says whether they do.
* Promise rejection / thrown errors are modelled with `Except`.
-/

namespace UserSvc

/-- Theme enumeration of `UserPreferences.theme` (`'light' | 'dark' | 'system'`). -/
inductive Theme where
  | light
  | dark
  | system
deriving DecidableEq, Repr

/-- `UserPreferences` from the source: theme, notification flag, language tag. -/
structure UserPreferences where
  theme : Theme
  notifications : Bool
  language : String
deriving DecidableEq, Repr

/-- `User` from the source.  `lastLogin` is an optional instant (ms since
epoch); `preferences` is optional. -/
structure User where
  id : String
  name : String
  email : String
  lastLogin : Option Int
  preferences : Option UserPreferences
deriving DecidableEq, Repr

/-- `Partial<UserPreferences>`: each field may be absent (key not present
in the object literal). -/
structure PrefsPatch where
  theme : Option Theme
  notifications : Option Bool
  language : Option String
deriving DecidableEq, Repr

/-! ### Splitting strings, as JavaScript `String.prototype.split` does

`"a@b@c".split('@')` is `["a","b","c"]`; `"".split('@')` is `[""]`;
`"a@".split('@')` is `["a",""]`.  We implement the split on character
lists so every use is decidable by evaluation. -/

/-- Split a character list at every occurrence of `c` (JS `split`). -/
def splitCharList (c : Char) : List Char → List (List Char)
  | [] => [[]]
  | x :: xs =>
    match splitCharList c xs with
    | [] => [[]]
    | h :: t => if x = c then [] :: h :: t else (x :: h) :: t

/-- JS `s.split(c)` for a one-character separator. -/
def jsSplit (c : Char) (s : String) : List String :=
  (splitCharList c s.data).map (fun l => String.mk l)

/-- JS `s.endsWith(suffix)`. -/
def jsEndsWith (s suffixStr : String) : Bool :=
  List.isSuffixOf suffixStr.data s.data

/-- JS `s.trim()`: strip whitespace from both ends. -/
def jsTrim (s : String) : String :=
  String.mk (((s.data.dropWhile Char.isWhitespace).reverse.dropWhile
    Char.isWhitespace).reverse)

/-! ### `calculateUserScore` (source lines 152–195)

The email factor can throw a `TypeError`: when the email is non-empty but
contains no `'@'`, `split('@')[1]` is `undefined`, the two `===`
comparisons are false, and `undefined.endsWith` raises.  The whole
function therefore returns `Except Unit Int`: `.error ()` models the
thrown `TypeError`. -/

/-- Factor 1 of `calculateUserScore`: the email-domain bonus.  A falsy
(empty) email skips the factor (contributes 0).  Otherwise
`domain = email.split('@')[1]`; `undefined === 'gmail.com'` and
`undefined === 'hotmail.com'` are false, then `undefined.endsWith('.edu')`
throws, modelled by `.error ()`. -/
def emailFactor (email : String) : Except Unit Int :=
  if email = "" then .ok 0
  else
    match (jsSplit '@' email).get? 1 with
    | some domain =>
      if domain = "gmail.com" then .ok 5
      else if domain = "hotmail.com" then .ok 3
      else if jsEndsWith domain ".edu" then .ok 10
      else if jsEndsWith domain ".gov" then .ok 15
      else .ok 2
    | none => .error ()

/-- Factor 2: last-login recency.  `daysSinceLogin < k` on the fractional
day count equals `now - t < k * 86400000` on the millisecond difference. -/
def loginFactor (now : Int) (lastLogin : Option Int) : Int :=
  match lastLogin with
  | none => 0
  | some t =>
    let ms := now - t
    if ms < 86400000 then 20
    else if ms < 7 * 86400000 then 15
    else if ms < 30 * 86400000 then 5
    else 0

/-- Factor 3: name structure.  `name.trim().split(' ')` tokens (empty
tokens from repeated spaces included, as in JS), 2 points each capped at
10, plus an exclusive length tier on the raw name length. -/
def nameFactor (name : String) : Int :=
  if name = "" then 0
  else
    let nameParts := jsSplit ' ' (jsTrim name)
    let totalLength : Int := name.length
    min (nameParts.length * 2 : Int) 10 +
      (if totalLength > 15 then 3
       else if totalLength > 10 then 2
       else if totalLength > 5 then 1
       else 0)

/-- Factor 4: preferences bonus.  The language bonus requires the language
to be truthy (non-empty) and different from `"en"`. -/
def prefFactor : Option UserPreferences → Int
  | none => 0
  | some p =>
    (if p.notifications then 5 else 0) +
    (if p.theme = Theme.dark then 2 else 0) +
    (if p.language ≠ "" ∧ p.language ≠ "en" then 3 else 0)

/-- `calculateUserScore(user)`.  `!user` is modelled by `Option`; all
contributions are integers, so `Math.round` is the identity.  A thrown
`TypeError` from the email factor aborts the whole call. -/
def calculateUserScore (now : Int) (user : Option User) : Except Unit Int :=
  match user with
  | none => .ok 0
  | some u =>
    match emailFactor u.email with
    | .error e => .error e
    | .ok emailB =>
      .ok (10 + emailB + loginFactor now u.lastLogin +
        nameFactor u.name + prefFactor u.preferences)

/-! Definitions following the words of claim C9, for comparison with the
code: the claim reads the domain as "the substring after the first `@`". -/

/-- The claim's domain rule: the bonus as a function of the domain text. -/
def specDomainRule (domain : String) : Int :=
  if domain = "gmail.com" then 5
  else if domain = "hotmail.com" then 3
  else if jsEndsWith domain ".edu" then 10
  else if jsEndsWith domain ".gov" then 15
  else 2

/-- The claim's reading of "domain": everything after the first `'@'`
(re-joining all split segments past the first). -/
def specAfterFirstAt (s : String) : String :=
  String.intercalate "@" ((jsSplit '@' s).drop 1)

/-! ### Persistent storage model

`saveUserToStorage` writes `JSON.stringify(user)`; on read,
`getUserFromStorage` parses the string back.  `JSON.stringify` turns a
`Date` into a string, so the parsed object carries `lastLogin` as a
string, and line 220 rehydrates it with `new Date(...)`.  We model the
string layer at the JSON-value level: a cell is either a parsed user
shape (with `lastLogin` still a string) or a blob on which `JSON.parse`
throws. -/

/-- The user shape as it sits in storage after `JSON.parse`: `lastLogin`
is still the serialized string. -/
structure StoredUser where
  id : String
  name : String
  email : String
  lastLogin : Option String
  preferences : Option UserPreferences
deriving DecidableEq, Repr

/-- A storage cell: what `JSON.parse` would make of a stored string. -/
inductive StoredData where
  | user (su : StoredUser)
  | malformed
deriving DecidableEq, Repr

/-- Serialization of a `Date` (ms since epoch) into its JSON string.  The
exact textual format is irrelevant to every claim; only that parsing the
text back recovers the same instant. -/
def dateToJson (d : Int) : String := toString d

/-- `new Date(s).getTime()` for a string produced by `dateToJson`. -/
def jsonToDate (s : String) : Int := s.toInt?.getD 0

/-- `JSON.stringify(user)` at the JSON-value level. -/
def storedOfUser (u : User) : StoredUser :=
  { id := u.id, name := u.name, email := u.email
    lastLogin := u.lastLogin.map dateToJson
    preferences := u.preferences }

/-- Rehydration performed by `getUserFromStorage` lines 216–223: the
parsed object with its `lastLogin` string turned back into a `Date`. -/
def userOfStored (su : StoredUser) : User :=
  { id := su.id, name := su.name, email := su.email
    lastLogin := su.lastLogin.map jsonToDate
    preferences := su.preferences }

/-- Combined mutable state: the service's private fields plus the
injected persistent store's contents. -/
structure St where
  cachedUsers : List (String × User)
  lastFetchTime : Int
  fetchInProgress : Bool
  store : List (String × StoredData)
deriving Repr

/-- Events sent to the injected logger. -/
inductive LogEvent where
  | cacheHit (id : String)
  | fetching (id : String)
  | fetchFailed
  | storageSaveFailed
  | storageReadFailed
  | prefsUpdated (id : String)
  | prefsUpdateFailed
deriving DecidableEq, Repr

/-- Remote calls issued to the injected API client. -/
inductive RemoteCall where
  | get (url : String)
  | post (url : String)
deriving DecidableEq, Repr

/-- External-world behaviour for one pass through the `getUserById` body.
`now` is what `Date.now()` returns at line 58 (before any awaiting);
`completionTime` is the wall-clock instant at which the remote GET
settles — the code never reads the clock again after the await, so this
field never influences the implementation.  `getResult` is how the
`apiClient.get` promise settles; the two `throws` flags say whether the
corresponding `Storage` method throws when called in this pass. -/
structure FetchEnv where
  now : Int
  completionTime : Int
  getResult : Except String User
  setItemThrows : Bool
  getItemThrows : Bool

/-- `saveUserToStorage(user)` (lines 200–206): `setItem` under key
`user_{id}`; a throw is caught and logged, leaving the store unchanged. -/
def saveUserToStorage (setItemThrows : Bool) (store : List (String × StoredData))
    (user : User) : List (String × StoredData) × List LogEvent :=
  if setItemThrows then (store, [.storageSaveFailed])
  else (("user_" ++ user.id, .user (storedOfUser user)) :: store, [])

/-- `getUserFromStorage(id)` (lines 211–228): a throwing `getItem` or a
failing `JSON.parse` is caught, logged, and turns into `null`; a missing
key is `null`; otherwise the parsed user is rehydrated. -/
def getUserFromStorage (getItemThrows : Bool) (store : List (String × StoredData))
    (id : String) : Option User × List LogEvent :=
  if getItemThrows then (none, [.storageReadFailed])
  else
    match List.lookup ("user_" ++ id) store with
    | none => (none, [])
    | some .malformed => (none, [.storageReadFailed])
    | some (.user su) => (some (userOfStored su), [])

/-- Outcome of one pass through the `getUserById` body. -/
inductive FetchResult where
  | ok (u : User)
  | retryLater
  | error (msg : String)
deriving DecidableEq, Repr

/-- Result record of one pass: the settled value (or the decision to
retry after 100ms), the state afterwards, the remote calls issued and the
log events emitted, in order. -/
structure FetchOut where
  result : FetchResult
  state : St
  calls : List RemoteCall
  logs : List LogEvent
deriving Repr

/-- Lines 79–101 of `getUserById`: from the settling of the awaited GET
to the end of the `try`/`catch`/`finally`.  `now` is the value captured
at line 58.  On success the cache, the freshness clock (to `now`) and
storage are updated; on failure the storage fallback is consulted; the
in-flight flag is cleared on every path (`finally`). -/
def fetchSettle (st : St) (now : Int) (getResult : Except String User)
    (setItemThrows getItemThrows : Bool) (id : String) :
    Except String User × St × List LogEvent :=
  match getResult with
  | .ok user =>
    let st1 : St := { st with
      cachedUsers := (id, user) :: st.cachedUsers
      lastFetchTime := now }
    let saved := saveUserToStorage setItemThrows st1.store user
    (.ok user, { st1 with store := saved.1, fetchInProgress := false }, saved.2)
  | .error _ =>
    let fallback := getUserFromStorage getItemThrows st.store id
    match fallback.1 with
    | some storedUser =>
      (.ok storedUser, { st with fetchInProgress := false },
        [.fetchFailed] ++ fallback.2)
    | none =>
      (.error ("Failed to fetch user with ID " ++ id),
        { st with fetchInProgress := false }, [.fetchFailed] ++ fallback.2)

/-- Lines 66–101 of `getUserById`: the part after the cache check.  If a
fetch is in flight the caller retries the whole operation after 100ms
(modelled as `retryLater`, no state change, no remote call).  Otherwise
the in-flight flag is set, the GET is issued, and `fetchSettle` finishes
the pass. -/
def fetchBody (st : St) (env : FetchEnv) (id : String) : FetchOut :=
  if st.fetchInProgress then
    { result := .retryLater, state := st, calls := [], logs := [] }
  else
    let settled := fetchSettle st env.now env.getResult
      env.setItemThrows env.getItemThrows id
    { result := match settled.1 with
        | .ok u => .ok u
        | .error m => .error m
      state := settled.2.1
      calls := [.get ("/users/" ++ id)]
      logs := [.fetching id] ++ settled.2.2 }

/-- `getUserById(id)` (lines 55–102), one pass: cache check first (an
entry must exist and the shared freshness clock must be within
`cacheDuration` of `now`), then the body. -/
def getUserByIdStep (cacheDuration : Int) (st : St) (env : FetchEnv)
    (id : String) : FetchOut :=
  match List.lookup id st.cachedUsers with
  | some cachedUser =>
    if env.now - st.lastFetchTime < cacheDuration then
      { result := .ok cachedUser, state := st, calls := [], logs := [.cacheHit id] }
    else fetchBody st env id
  | none => fetchBody st env id

/-- `clearCache()` (lines 233–236). -/
def clearCache (st : St) : St :=
  { st with cachedUsers := [], lastFetchTime := 0 }

/-! ### `updateUserPreferences` (lines 108–146) -/

/-- The object literal of lines 119–125: built-in defaults, spread of the
existing preferences (spreading `undefined` adds nothing), spread of the
patch (only present keys override). -/
def mergePrefs (existing : Option UserPreferences) (patch : PrefsPatch) :
    UserPreferences :=
  let base : UserPreferences :=
    match existing with
    | none => { theme := .system, notifications := false, language := "en" }
    | some e => e
  { theme := patch.theme.getD base.theme
    notifications := patch.notifications.getD base.notifications
    language := patch.language.getD base.language }

/-- External-world behaviour for one `updateUserPreferences` pass: the
environment of the inner `getUserById` call, how the POST settles, and
whether `setItem` throws during the final save. -/
structure UpdateEnv where
  fetchEnv : FetchEnv
  postResult : Except String User
  postSetItemThrows : Bool

/-- `updateUserPreferences(userId, preferences)`: fetch the current user
via `getUserById`, merge, POST the merged set, overwrite the returned
user's preferences with the local merge, update cache and storage.  Any
thrown error (fetch stage or POST stage) is caught, logged, and replaced
by the single derived error.  An inner `retryLater` (only possible when
the in-flight flag was set at entry) is propagated: the real code would
suspend and retry, performing nothing further yet. -/
def updateUserPreferencesStep (cacheDuration : Int) (st : St) (env : UpdateEnv)
    (userId : String) (preferences : PrefsPatch) : FetchOut :=
  let f := getUserByIdStep cacheDuration st env.fetchEnv userId
  match f.result with
  | .retryLater => f
  | .error _ =>
    { result := .error ("Failed to update preferences for user " ++ userId)
      state := f.state, calls := f.calls, logs := f.logs ++ [.prefsUpdateFailed] }
  | .ok user =>
    let updatedPreferences := mergePrefs user.preferences preferences
    match env.postResult with
    | .error _ =>
      { result := .error ("Failed to update preferences for user " ++ userId)
        state := f.state
        calls := f.calls ++ [.post ("/users/" ++ userId ++ "/preferences")]
        logs := f.logs ++ [.prefsUpdateFailed] }
    | .ok serverUser =>
      let user2 : User := { serverUser with preferences := some updatedPreferences }
      let st2 : St := { f.state with cachedUsers := (userId, user2) :: f.state.cachedUsers }
      let saved := saveUserToStorage env.postSetItemThrows st2.store user2
      { result := .ok user2
        state := { st2 with store := saved.1 }
        calls := f.calls ++ [.post ("/users/" ++ userId ++ "/preferences")]
        logs := f.logs ++ saved.2 ++ [.prefsUpdated userId] }

/-! ### Event-loop model of concurrent `getUserById` calls

JavaScript runs the body of `getUserById` atomically between suspension
points.  The suspension points are: the `await` of the GET (line 79) and
the 100ms `setTimeout` of the de-duplication branch (lines 69–71).  We
model each outstanding call as a task whose phase records where it is
suspended, and an interleaving small-step relation in which the
environment chooses which task advances, what the clock reads, and how
promises settle. -/

/-- Where a `getUserById` call currently stands. -/
inductive Phase where
  | ready
  | waitingTimer (delayMs : Nat)
  | awaitingGet (capturedNow : Int)
  | done (r : Except String User)
deriving Repr

/-- One outstanding `getUserById(uid)` call. -/
structure Task where
  uid : String
  phase : Phase
deriving Repr

/-- Global state of the event-loop model. -/
structure GState where
  svc : St
  tasks : List Task
deriving Repr

/-- The synchronous segment a ready task executes, lines 57–79: cache
check, then either return, or schedule a 100ms retry, or set the
in-flight flag and issue the GET (recording the captured `now`). -/
def runReadySeg (cacheDuration : Int) (svc : St) (now : Int) (id : String) :
    St × Phase × List RemoteCall :=
  match List.lookup id svc.cachedUsers with
  | some u =>
    if now - svc.lastFetchTime < cacheDuration then (svc, .done (.ok u), [])
    else
      if svc.fetchInProgress then (svc, .waitingTimer 100, [])
      else ({ svc with fetchInProgress := true }, .awaitingGet now,
        [.get ("/users/" ++ id)])
  | none =>
    if svc.fetchInProgress then (svc, .waitingTimer 100, [])
    else ({ svc with fetchInProgress := true }, .awaitingGet now,
      [.get ("/users/" ++ id)])

/-- The synchronous segment run when the awaited GET settles:
`fetchSettle` with the `now` the task captured before suspending. -/
def runResolveSeg (svc : St) (capturedNow : Int) (id : String)
    (res : Except String User) (setItemThrows getItemThrows : Bool) : St × Phase :=
  let settled := fetchSettle svc capturedNow res setItemThrows getItemThrows id
  (settled.2.1, .done settled.1)

/-- Interleaving step relation: a new call arrives, a ready task runs its
synchronous segment, a 100ms timer fires (making its task ready to retry
from the cache check), or an awaited GET settles. -/
inductive EvStep (cacheDuration : Int) : GState → GState → Prop
  | spawn (g : GState) (id : String) :
      EvStep cacheDuration g ⟨g.svc, g.tasks ++ [⟨id, .ready⟩]⟩
  | runReady (g : GState) (i : Nat) (id : String) (now : Int)
      (h : g.tasks[i]? = some ⟨id, .ready⟩) :
      EvStep cacheDuration g
        ⟨(runReadySeg cacheDuration g.svc now id).1,
         g.tasks.set i ⟨id, (runReadySeg cacheDuration g.svc now id).2.1⟩⟩
  | timerFires (g : GState) (i : Nat) (id : String) (n : Nat)
      (h : g.tasks[i]? = some ⟨id, .waitingTimer n⟩) :
      EvStep cacheDuration g ⟨g.svc, g.tasks.set i ⟨id, .ready⟩⟩
  | getSettles (g : GState) (i : Nat) (id : String) (capturedNow : Int)
      (res : Except String User) (setItemThrows getItemThrows : Bool)
      (h : g.tasks[i]? = some ⟨id, .awaitingGet capturedNow⟩) :
      EvStep cacheDuration g
        ⟨(runResolveSeg g.svc capturedNow id res setItemThrows getItemThrows).1,
         g.tasks.set i
           ⟨id, (runResolveSeg g.svc capturedNow id res setItemThrows getItemThrows).2⟩⟩

/-- Reachable global states: the coordinator starts with the in-flight
flag clear and no outstanding calls (cache, clock and store arbitrary). -/
inductive Reach (cacheDuration : Int) : GState → Prop
  | init (cache : List (String × User)) (lft : Int)
      (store : List (String × StoredData)) :
      Reach cacheDuration ⟨⟨cache, lft, false, store⟩, []⟩
  | step {g g' : GState} : Reach cacheDuration g →
      EvStep cacheDuration g g' → Reach cacheDuration g'

/-- Is a task suspended on a remote GET? -/
def isAwaiting : Phase → Bool
  | .awaitingGet _ => true
  | _ => false

/-- Number of remote fetches currently in flight. -/
def awaitingCount : List Task → Nat
  | [] => 0
  | t :: ts => (if isAwaiting t.phase then 1 else 0) + awaitingCount ts

/-! ### Helper lemmas -/

theorem awaitingCount_append (ts us : List Task) :
    awaitingCount (ts ++ us) = awaitingCount ts + awaitingCount us := by
  induction ts with
  | nil => simp [awaitingCount]
  | cons x xs ih => simp [awaitingCount, ih]; omega

theorem awaitingCount_set {ts : List Task} {i : Nat} {uid : String}
    {ph : Phase} (ph' : Phase) (h : ts[i]? = some ⟨uid, ph⟩) :
    awaitingCount (ts.set i ⟨uid, ph'⟩) + (if isAwaiting ph then 1 else 0)
      = awaitingCount ts + (if isAwaiting ph' then 1 else 0) := by
  induction ts generalizing i with
  | nil => simp at h
  | cons x xs ih =>
    cases i with
    | zero =>
      simp at h
      subst h
      simp [List.set, awaitingCount]
      omega
    | succ n =>
      simp at h
      have hrec := ih h
      simp [List.set, awaitingCount]
      omega

/-- A ready segment either leaves the service state untouched and does
not begin a fetch, or begins a fetch: then the in-flight flag was clear
and is now set. -/
theorem runReadySeg_cases (d : Int) (svc : St) (now : Int) (id : String) :
    ((runReadySeg d svc now id).1 = svc ∧
      isAwaiting (runReadySeg d svc now id).2.1 = false) ∨
    (svc.fetchInProgress = false ∧
      (runReadySeg d svc now id).1 = { svc with fetchInProgress := true } ∧
      isAwaiting (runReadySeg d svc now id).2.1 = true) := by
  unfold runReadySeg
  cases hl : List.lookup id svc.cachedUsers with
  | some u =>
    by_cases hfresh : now - svc.lastFetchTime < d
    · left; simp [hfresh, isAwaiting]
    · cases hp : svc.fetchInProgress
      · right; simp [hfresh, hp, isAwaiting]
      · left; simp [hfresh, hp, isAwaiting]
  | none =>
    cases hp : svc.fetchInProgress
    · right; simp [hp, isAwaiting]
    · left; simp [hp, isAwaiting]

/-- Settling a GET always clears the in-flight flag and suspends no
further fetch. -/
theorem runResolveSeg_flag (svc : St) (capturedNow : Int) (id : String)
    (res : Except String User) (setItemThrows getItemThrows : Bool) :
    (runResolveSeg svc capturedNow id res setItemThrows getItemThrows).1.fetchInProgress
        = false ∧
    isAwaiting (runResolveSeg svc capturedNow id res setItemThrows getItemThrows).2
        = false := by
  unfold runResolveSeg fetchSettle
  cases res with
  | ok u => simp [isAwaiting]
  | error e =>
    cases hfb : (getUserFromStorage getItemThrows svc.store id).1 <;>
      simp [isAwaiting, hfb]

/-- The central invariant: exactly one remote fetch is in flight when the
in-flight flag is set, none when it is clear. -/
theorem reach_inv {d : Int} {g : GState} (h : Reach d g) :
    awaitingCount g.tasks = (if g.svc.fetchInProgress then 1 else 0) := by
  induction h with
  | init cache lft store => simp [awaitingCount]
  | step hr hs ih =>
    rename_i gp gq
    clear hr
    cases hs with
    | spawn id =>
      dsimp only
      rw [awaitingCount_append]
      simpa [awaitingCount, isAwaiting] using ih
    | runReady i id now hget =>
      dsimp only
      have hcnt := awaitingCount_set (runReadySeg d gp.svc now id).2.1 hget
      rcases runReadySeg_cases d gp.svc now id with ⟨h1, h2⟩ | ⟨h0, h1, h2⟩
      · rw [h2] at hcnt
        show _ = if (runReadySeg d gp.svc now id).1.fetchInProgress then 1 else 0
        rw [h1]
        simp [isAwaiting] at hcnt
        omega
      · rw [h2] at hcnt
        show _ = if (runReadySeg d gp.svc now id).1.fetchInProgress then 1 else 0
        rw [h1]
        simp [isAwaiting] at hcnt ⊢
        rw [h0] at ih
        simp at ih
        omega
    | timerFires i id n hget =>
      dsimp only
      have hcnt := awaitingCount_set Phase.ready hget
      simp [isAwaiting] at hcnt
      show awaitingCount _ = if gp.svc.fetchInProgress then 1 else 0
      omega
    | getSettles i id capturedNow res setT getT hget =>
      dsimp only
      have hcnt := awaitingCount_set
        (runResolveSeg gp.svc capturedNow id res setT getT).2 hget
      rcases runResolveSeg_flag gp.svc capturedNow id res setT getT with ⟨hf, hna⟩
      rw [hna] at hcnt
      simp [isAwaiting] at hcnt
      show _ = if (runResolveSeg gp.svc capturedNow id res setT getT).1.fetchInProgress
        then 1 else 0
      rw [hf]
      simp
      cases hflag : gp.svc.fetchInProgress
      · rw [hflag] at ih; simp at ih; omega
      · rw [hflag] at ih; simp at ih; omega

/-- `fetchSettle` leaves the in-flight flag clear on every path (the
`finally` of lines 99–101). -/
theorem fetchSettle_flag (st : St) (now : Int) (res : Except String User)
    (setItemThrows getItemThrows : Bool) (id : String) :
    (fetchSettle st now res setItemThrows getItemThrows id).2.1.fetchInProgress
      = false := by
  unfold fetchSettle
  cases res with
  | ok u => simp
  | error e =>
    cases hfb : (getUserFromStorage getItemThrows st.store id).1 <;> simp [hfb]

/-- When the in-flight flag is set, the body retries; otherwise it issues
exactly the one GET for this identifier. -/
theorem fetchBody_split (st : St) (env : FetchEnv) (id : String) :
    (st.fetchInProgress = true →
      fetchBody st env id = ⟨.retryLater, st, [], []⟩) ∧
    (st.fetchInProgress = false →
      (fetchBody st env id).calls = [.get ("/users/" ++ id)]) := by
  unfold fetchBody
  cases hp : st.fetchInProgress <;> simp

/-- A pass that issues no remote call and is not a cache hit can only be
the de-duplication retry. -/
theorem fetchBody_silent (st : St) (env : FetchEnv) (id : String)
    (h : (fetchBody st env id).calls = []) :
    (fetchBody st env id).result = .retryLater := by
  unfold fetchBody at h ⊢
  cases hp : st.fetchInProgress
  · rw [hp] at h; simp at h
  · simp

/-- On a cache miss or a stale clock, `getUserById` proceeds to the body. -/
theorem getUserByIdStep_miss (d : Int) (st : St) (env : FetchEnv) (id : String)
    (hmiss : List.lookup id st.cachedUsers = none ∨
      ¬(env.now - st.lastFetchTime < d)) :
    getUserByIdStep d st env id = fetchBody st env id := by
  unfold getUserByIdStep
  rcases hmiss with hm | hm
  · rw [hm]
  · cases hl : List.lookup id st.cachedUsers <;> simp [hm]

/-- C1: `fetchById(id)` returns a value while performing zero
remote-client calls exactly when a cache entry for `id` exists and
`now − lastFetchTime` is strictly below the cache duration; in that case
the returned value is the cached entity and the state is untouched, and
in the contrary case (entry missing or duration elapsed), provided no
fetch is in flight, the pass performs exactly the remote GET
`/users/{id}`. -/
theorem getUserById_cache_hit_iff (d : Int) (st : St) (env : FetchEnv)
    (id : String) :
    ((∃ u, (getUserByIdStep d st env id).result = .ok u ∧
        (getUserByIdStep d st env id).calls = []) ↔
      ((∃ u, List.lookup id st.cachedUsers = some u) ∧
        env.now - st.lastFetchTime < d)) ∧
    (∀ u, List.lookup id st.cachedUsers = some u →
      env.now - st.lastFetchTime < d →
      (getUserByIdStep d st env id).result = .ok u ∧
      (getUserByIdStep d st env id).state = st ∧
      (getUserByIdStep d st env id).calls = []) ∧
    ((List.lookup id st.cachedUsers = none ∨
        ¬(env.now - st.lastFetchTime < d)) →
      st.fetchInProgress = false →
      (getUserByIdStep d st env id).calls = [.get ("/users/" ++ id)]) := by
  refine ⟨?_, ?_, ?_⟩
  · unfold getUserByIdStep
    cases hl : List.lookup id st.cachedUsers with
    | some u0 =>
      by_cases hfresh : env.now - st.lastFetchTime < d
      · simp [hfresh]
      · simp only [hfresh, if_neg, ite_false]
        constructor
        · rintro ⟨u, hok, hcalls⟩
          have := fetchBody_silent st env id hcalls
          rw [this] at hok
          cases hok
        · rintro ⟨-, hf⟩
          exact hf.elim
    | none =>
      constructor
      · rintro ⟨u, hok, hcalls⟩
        have := fetchBody_silent st env id hcalls
        rw [this] at hok
        cases hok
      · rintro ⟨⟨u, hu⟩, -⟩
        cases hu
  · intro u hu hfresh
    unfold getUserByIdStep
    rw [hu]
    simp [hfresh]
  · intro hmiss hp
    rw [getUserByIdStep_miss d st env id hmiss]
    exact (fetchBody_split st env id).2 hp

/-- C1 witness: a fresh cache entry is returned with no remote call, and
with a stale clock the GET is issued. -/
theorem getUserById_cache_hit_iff_witness :
    (getUserByIdStep 60000
        ⟨[("u1", ⟨"u1", "N", "e@g.c", none, none⟩)], 0, false, []⟩
        ⟨5, 5, .error "boom", false, false⟩ "u1").result
      = .ok ⟨"u1", "N", "e@g.c", none, none⟩ ∧
    (getUserByIdStep 60000
        ⟨[("u1", ⟨"u1", "N", "e@g.c", none, none⟩)], 0, false, []⟩
        ⟨70000, 70000, .error "boom", false, false⟩ "u1").calls
      = [.get "/users/u1"] :=
  ⟨((getUserById_cache_hit_iff 60000
      ⟨[("u1", ⟨"u1", "N", "e@g.c", none, none⟩)], 0, false, []⟩
      ⟨5, 5, .error "boom", false, false⟩ "u1").2.1
      ⟨"u1", "N", "e@g.c", none, none⟩ rfl (by decide)).1,
   (getUserById_cache_hit_iff 60000
      ⟨[("u1", ⟨"u1", "N", "e@g.c", none, none⟩)], 0, false, []⟩
      ⟨70000, 70000, .error "boom", false, false⟩ "u1").2.2
      (Or.inr (by decide)) rfl⟩

/-- C2: when the remote GET fails, a deserializable persisted copy for
`id` is returned as the successful result (with its stored last-login
string rehydrated into an instant) and the in-memory cache is not
touched; when the persisted copy is missing, unparseable, or the storage
read throws, the call fails with the derived error naming `id`. -/
theorem getUserById_storage_fallback (d : Int) (st : St) (env : FetchEnv)
    (id : String) (hp : st.fetchInProgress = false)
    (hmiss : List.lookup id st.cachedUsers = none ∨
      ¬(env.now - st.lastFetchTime < d))
    (e : String) (hfail : env.getResult = .error e) :
    (∀ su, env.getItemThrows = false →
      List.lookup ("user_" ++ id) st.store = some (.user su) →
      (getUserByIdStep d st env id).result = .ok (userOfStored su) ∧
      (getUserByIdStep d st env id).state.cachedUsers = st.cachedUsers ∧
      (userOfStored su).lastLogin = su.lastLogin.map jsonToDate) ∧
    ((env.getItemThrows = true ∨
        (env.getItemThrows = false ∧
          List.lookup ("user_" ++ id) st.store = none) ∨
        (env.getItemThrows = false ∧
          List.lookup ("user_" ++ id) st.store = some .malformed)) →
      (getUserByIdStep d st env id).result
        = .error ("Failed to fetch user with ID " ++ id)) := by
  rw [getUserByIdStep_miss d st env id hmiss]
  unfold fetchBody
  rw [hp]
  simp only [Bool.false_eq_true, if_false, hfail]
  constructor
  · intro su hthrow hcell
    unfold fetchSettle getUserFromStorage
    rw [hthrow, hcell]
    simp [userOfStored]
  · intro hnone
    unfold fetchSettle getUserFromStorage
    rcases hnone with ht | ⟨ht, hcell⟩ | ⟨ht, hcell⟩
    · rw [ht]; simp
    · rw [ht]; simp [hcell]
    · rw [ht]; simp [hcell]

/-- C2 witness: with a failing GET and a persisted copy present, the
persisted entity is returned and the cache stays empty; with an empty
store the derived error is raised. -/
theorem getUserById_storage_fallback_witness :
    (getUserByIdStep 60000
        ⟨[], 0, false, [("user_u1", .user ⟨"u1", "N", "e@g.c", none, none⟩)]⟩
        ⟨5, 9, .error "boom", false, false⟩ "u1").result
      = .ok ⟨"u1", "N", "e@g.c", none, none⟩ ∧
    (getUserByIdStep 60000 ⟨[], 0, false, []⟩
        ⟨5, 9, .error "boom", false, false⟩ "u1").result
      = .error "Failed to fetch user with ID u1" :=
  ⟨(((getUserById_storage_fallback 60000
      ⟨[], 0, false, [("user_u1", .user ⟨"u1", "N", "e@g.c", none, none⟩)]⟩
      ⟨5, 9, .error "boom", false, false⟩ "u1" rfl (Or.inl rfl)
      "boom" rfl).1 ⟨"u1", "N", "e@g.c", none, none⟩ rfl rfl).1),
   ((getUserById_storage_fallback 60000 ⟨[], 0, false, []⟩
      ⟨5, 9, .error "boom", false, false⟩ "u1" rfl (Or.inl rfl)
      "boom" rfl).2 (Or.inr (Or.inl ⟨rfl, rfl⟩)))⟩

/-- C4 counterexample: the claim asserts the freshness clock is set to
the time at which the fetch completed.  With `Date.now()` reading 0 at
the cache check and the GET completing at wall-clock time 50, the code
leaves `lastFetchTime = 0` (the pre-await reading), not 50: line 83
stores the `now` captured at line 58. -/
theorem getUserById_freshness_clock_counterexample :
    (getUserByIdStep 60000 ⟨[], 0, false, []⟩
        ⟨0, 50, .ok ⟨"u1", "N", "e@g.c", none, none⟩, false, false⟩
        "u1").result = .ok ⟨"u1", "N", "e@g.c", none, none⟩ ∧
    (getUserByIdStep 60000 ⟨[], 0, false, []⟩
        ⟨0, 50, .ok ⟨"u1", "N", "e@g.c", none, none⟩, false, false⟩
        "u1").state.lastFetchTime = 0 ∧
    ((0 : Int) = 50 → False) :=
  ⟨rfl, rfl, by decide⟩

/-- C4 (amended): on remote success the fetched entity is cached under
`id`, the shared freshness clock is set to the `Date.now()` value read at
the start of the call (before the remote request — not the completion
time), the entity is best-effort persisted under `user_{entity.id}`, and
the fetched entity is returned. -/
theorem getUserById_success_updates (d : Int) (st : St) (env : FetchEnv)
    (id : String) (user : User) (hp : st.fetchInProgress = false)
    (hmiss : List.lookup id st.cachedUsers = none ∨
      ¬(env.now - st.lastFetchTime < d))
    (hok : env.getResult = .ok user) :
    (getUserByIdStep d st env id).result = .ok user ∧
    List.lookup id (getUserByIdStep d st env id).state.cachedUsers
      = some user ∧
    (getUserByIdStep d st env id).state.lastFetchTime = env.now ∧
    (env.setItemThrows = false →
      List.lookup ("user_" ++ user.id) (getUserByIdStep d st env id).state.store
        = some (.user (storedOfUser user))) ∧
    (env.setItemThrows = true →
      (getUserByIdStep d st env id).state.store = st.store ∧
      LogEvent.storageSaveFailed ∈ (getUserByIdStep d st env id).logs) := by
  rw [getUserByIdStep_miss d st env id hmiss]
  unfold fetchBody
  rw [hp]
  simp only [Bool.false_eq_true, if_false, hok]
  unfold fetchSettle saveUserToStorage
  cases hthrow : env.setItemThrows <;> simp [List.lookup]

/-- C4 witness: concrete successful fetch updating cache, clock and
storage. -/
theorem getUserById_success_updates_witness :
    (getUserByIdStep 60000 ⟨[], 7, false, []⟩
        ⟨100000, 100200, .ok ⟨"u1", "N", "e@g.c", none, none⟩, false, false⟩
        "u1").result = .ok ⟨"u1", "N", "e@g.c", none, none⟩ ∧
    (getUserByIdStep 60000 ⟨[], 7, false, []⟩
        ⟨100000, 100200, .ok ⟨"u1", "N", "e@g.c", none, none⟩, false, false⟩
        "u1").state.lastFetchTime = 100000 :=
  ⟨(getUserById_success_updates 60000 ⟨[], 7, false, []⟩
      ⟨100000, 100200, .ok ⟨"u1", "N", "e@g.c", none, none⟩, false, false⟩
      "u1" ⟨"u1", "N", "e@g.c", none, none⟩ rfl (Or.inl rfl) rfl).1,
   (getUserById_success_updates 60000 ⟨[], 7, false, []⟩
      ⟨100000, 100200, .ok ⟨"u1", "N", "e@g.c", none, none⟩, false, false⟩
      "u1" ⟨"u1", "N", "e@g.c", none, none⟩ rfl (Or.inl rfl) rfl).2.2.1⟩

/-- C5: the in-flight flag is restored on every exit of a `getUserById`
pass (remote success, fallback success, and the thrown derived failure
alike); in particular a pass entered with the flag clear leaves it clear
and never ends in the retry limbo; and in every reachable interleaving,
whenever no remote fetch is awaited the flag is clear. -/
theorem getUserById_flag_released (d : Int) :
    (∀ (st : St) (env : FetchEnv) (id : String),
      (getUserByIdStep d st env id).state.fetchInProgress
        = st.fetchInProgress) ∧
    (∀ (st : St) (env : FetchEnv) (id : String),
      st.fetchInProgress = false →
      (getUserByIdStep d st env id).state.fetchInProgress = false ∧
      (getUserByIdStep d st env id).result ≠ .retryLater) ∧
    (∀ g : GState, Reach d g → awaitingCount g.tasks = 0 →
      g.svc.fetchInProgress = false) := by
  have hbody : ∀ (st : St) (env : FetchEnv) (id : String),
      (fetchBody st env id).state.fetchInProgress = st.fetchInProgress := by
    intro st env id
    unfold fetchBody
    cases hp : st.fetchInProgress
    · simpa using fetchSettle_flag st env.now env.getResult
        env.setItemThrows env.getItemThrows id
    · simp [hp]
  have hstep : ∀ (st : St) (env : FetchEnv) (id : String),
      (getUserByIdStep d st env id).state.fetchInProgress
        = st.fetchInProgress := by
    intro st env id
    unfold getUserByIdStep
    cases hl : List.lookup id st.cachedUsers with
    | some u =>
      by_cases hfresh : env.now - st.lastFetchTime < d
      · simp [hfresh]
      · simp [hfresh, hbody]
    | none => exact hbody st env id
  refine ⟨hstep, ?_, ?_⟩
  · intro st env id hp
    refine ⟨(hstep st env id).trans hp, ?_⟩
    unfold getUserByIdStep
    have hret : (fetchBody st env id).result ≠ .retryLater := by
      unfold fetchBody
      rw [hp]
      simp only [Bool.false_eq_true, if_false]
      cases hres : (fetchSettle st env.now env.getResult env.setItemThrows
        env.getItemThrows id).1 <;> simp
    cases hl : List.lookup id st.cachedUsers with
    | some u =>
      by_cases hfresh : env.now - st.lastFetchTime < d
      · simp [hfresh]
      · simpa [hfresh] using hret
    | none => exact hret
  · intro g hg hcount
    have hinv := reach_inv hg
    rw [hcount] at hinv
    cases hflag : g.svc.fetchInProgress
    · rfl
    · rw [hflag] at hinv; simp at hinv

/-- C5 witness: a concrete pass entered with the flag clear ends with it
clear, and the initial reachable state with no awaited fetch has the
flag clear. -/
theorem getUserById_flag_released_witness :
    (getUserByIdStep 60000 ⟨[], 0, false, []⟩
        ⟨5, 9, .error "boom", false, false⟩ "u1").state.fetchInProgress
      = false ∧
    (⟨⟨[], 0, false, []⟩, []⟩ : GState).svc.fetchInProgress = false :=
  ⟨((getUserById_flag_released 60000).2.1 ⟨[], 0, false, []⟩
      ⟨5, 9, .error "boom", false, false⟩ "u1" rfl).1,
   (getUserById_flag_released 60000).2.2 ⟨⟨[], 0, false, []⟩, []⟩
      (Reach.init [] 0 []) rfl⟩

/-- C3: a `getUserById` pass that reaches the de-duplication step while
the process-wide in-flight flag is set performs no remote call and
suspends for the fixed 100ms retry, leaving all state untouched; and in
every reachable interleaving of calls — for the same or different
identifiers — at most one remote fetch is in flight at any point. -/
theorem getUserById_dedup_serializes (d : Int) :
    (∀ (svc : St) (now : Int) (id : String),
      svc.fetchInProgress = true →
      (List.lookup id svc.cachedUsers = none ∨
        ¬(now - svc.lastFetchTime < d)) →
      runReadySeg d svc now id = (svc, Phase.waitingTimer 100, [])) ∧
    (∀ g : GState, Reach d g → awaitingCount g.tasks ≤ 1) := by
  constructor
  · intro svc now id hp hmiss
    unfold runReadySeg
    rcases hmiss with hm | hm
    · rw [hm]; simp [hp]
    · cases hl : List.lookup id svc.cachedUsers <;> simp [hm, hp]
  · intro g hg
    have hinv := reach_inv hg
    rw [hinv]
    cases g.svc.fetchInProgress <;> simp

/-- C3 witness: with the flag set, a stale pass suspends for 100ms with
no remote call; and a concrete reachable state in which one call has
begun a fetch and a second call has arrived has at most one fetch in
flight. -/
theorem getUserById_dedup_serializes_witness :
    runReadySeg 60000 ⟨[], 0, true, []⟩ 5 "u2"
      = (⟨[], 0, true, []⟩, Phase.waitingTimer 100, []) ∧
    awaitingCount [⟨"a", Phase.awaitingGet 0⟩, ⟨"b", Phase.ready⟩] ≤ 1 :=
  ⟨(getUserById_dedup_serializes 60000).1 ⟨[], 0, true, []⟩ 5 "u2" rfl
      (Or.inl rfl),
   (getUserById_dedup_serializes 60000).2
      ⟨⟨[], 0, true, []⟩, [⟨"a", Phase.awaitingGet 0⟩, ⟨"b", Phase.ready⟩]⟩
      (Reach.step
        (Reach.step
          (Reach.step (Reach.init [] 0 [])
            (EvStep.spawn ⟨⟨[], 0, false, []⟩, []⟩ "a"))
          (EvStep.runReady ⟨⟨[], 0, false, []⟩, [⟨"a", Phase.ready⟩]⟩
            0 "a" 0 rfl))
        (EvStep.spawn
          ⟨⟨[], 0, true, []⟩, [⟨"a", Phase.awaitingGet 0⟩]⟩ "b"))⟩

/-- C6: when `updatePreferences(id, p)` succeeds, the returned entity's
preferences and the cache entry under `id` both equal the local shallow
merge — built-in defaults, overridden by the fetched entity's existing
preferences, overridden by `p` — whatever preferences the server's POST
response carried. -/
theorem updatePrefs_merge (d : Int) (st : St) (env : UpdateEnv) (id : String)
    (patch : PrefsPatch) (user serverUser : User)
    (hfetch : (getUserByIdStep d st env.fetchEnv id).result = .ok user)
    (hpost : env.postResult = .ok serverUser) :
    (updateUserPreferencesStep d st env id patch).result
      = .ok { serverUser with
          preferences := some (mergePrefs user.preferences patch) } ∧
    List.lookup id (updateUserPreferencesStep d st env id patch).state.cachedUsers
      = some { serverUser with
          preferences := some (mergePrefs user.preferences patch) } ∧
    (mergePrefs user.preferences patch).theme
      = patch.theme.getD
          ((user.preferences.getD ⟨Theme.system, false, "en"⟩).theme) ∧
    (mergePrefs user.preferences patch).notifications
      = patch.notifications.getD
          ((user.preferences.getD ⟨Theme.system, false, "en"⟩).notifications) ∧
    (mergePrefs user.preferences patch).language
      = patch.language.getD
          ((user.preferences.getD ⟨Theme.system, false, "en"⟩).language) := by
  refine ⟨?_, ?_, ?_, ?_, ?_⟩
  · simp only [updateUserPreferencesStep, hfetch, hpost]
  · simp only [updateUserPreferencesStep, hfetch, hpost]
    simp [List.lookup]
  · cases user.preferences <;> simp [mergePrefs]
  · cases user.preferences <;> simp [mergePrefs]
  · cases user.preferences <;> simp [mergePrefs]

/-- C6 witness: the spec's own merge example — existing
`{theme: dark, notifications: true, language: "en"}` patched with
`{language: "fr"}` yields `{theme: dark, notifications: true,
language: "fr"}` as the result's and the cache's preferences. -/
theorem updatePrefs_merge_witness :
    (updateUserPreferencesStep 60000 ⟨[], 0, false, []⟩
        ⟨⟨5, 9, .ok ⟨"u1", "N", "e@g.c", none,
            some ⟨Theme.dark, true, "en"⟩⟩, false, false⟩,
         .ok ⟨"u1", "N", "e@g.c", none, none⟩, false⟩
        "u1" ⟨none, none, some "fr"⟩).result
      = .ok ⟨"u1", "N", "e@g.c", none, some ⟨Theme.dark, true, "fr"⟩⟩ :=
  (updatePrefs_merge 60000 ⟨[], 0, false, []⟩
      ⟨⟨5, 9, .ok ⟨"u1", "N", "e@g.c", none,
          some ⟨Theme.dark, true, "en"⟩⟩, false, false⟩,
       .ok ⟨"u1", "N", "e@g.c", none, none⟩, false⟩
      "u1" ⟨none, none, some "fr"⟩
      ⟨"u1", "N", "e@g.c", none, some ⟨Theme.dark, true, "en"⟩⟩
      ⟨"u1", "N", "e@g.c", none, none⟩ rfl rfl).1

/-- C7: a failure of either stage of `updatePreferences(id, p)` surfaces
as the single derived error naming `id` — the same error for both stages
— and when the POST stage is the one that fails, the operation performs
no mutation beyond its fetch stage: the state is exactly the state the
inner `getUserById` left. -/
theorem updatePrefs_failure (d : Int) (st : St) (env : UpdateEnv) (id : String)
    (patch : PrefsPatch) :
    (∀ e, (getUserByIdStep d st env.fetchEnv id).result = .error e →
      (updateUserPreferencesStep d st env id patch).result
        = .error ("Failed to update preferences for user " ++ id) ∧
      (updateUserPreferencesStep d st env id patch).state
        = (getUserByIdStep d st env.fetchEnv id).state) ∧
    (∀ user e, (getUserByIdStep d st env.fetchEnv id).result = .ok user →
      env.postResult = .error e →
      (updateUserPreferencesStep d st env id patch).result
        = .error ("Failed to update preferences for user " ++ id) ∧
      (updateUserPreferencesStep d st env id patch).state
        = (getUserByIdStep d st env.fetchEnv id).state) := by
  constructor
  · intro e hfetch
    simp only [updateUserPreferencesStep, hfetch]
    exact ⟨trivial, trivial⟩
  · intro user e hfetch hpost
    simp only [updateUserPreferencesStep, hfetch, hpost]
    exact ⟨trivial, trivial⟩

/-- C7 witness: a failing fetch stage and a failing POST stage both
produce the derived error, and the failing POST leaves the fetch stage's
state intact. -/
theorem updatePrefs_failure_witness :
    (updateUserPreferencesStep 60000 ⟨[], 0, false, []⟩
        ⟨⟨5, 9, .error "down", false, false⟩, .error "down", false⟩
        "u1" ⟨none, none, some "fr"⟩).result
      = .error "Failed to update preferences for user u1" ∧
    (updateUserPreferencesStep 60000 ⟨[], 0, false, []⟩
        ⟨⟨5, 9, .ok ⟨"u1", "N", "e@g.c", none, none⟩, false, false⟩,
         .error "down", false⟩
        "u1" ⟨none, none, some "fr"⟩).result
      = .error "Failed to update preferences for user u1" :=
  ⟨((updatePrefs_failure 60000 ⟨[], 0, false, []⟩
      ⟨⟨5, 9, .error "down", false, false⟩, .error "down", false⟩
      "u1" ⟨none, none, some "fr"⟩).1
      "Failed to fetch user with ID u1" rfl).1,
   ((updatePrefs_failure 60000 ⟨[], 0, false, []⟩
      ⟨⟨5, 9, .ok ⟨"u1", "N", "e@g.c", none, none⟩, false, false⟩,
       .error "down", false⟩
      "u1" ⟨none, none, some "fr"⟩).2
      ⟨"u1", "N", "e@g.c", none, none⟩ "down" rfl rfl).1⟩

/-- The settled value, cache and freshness clock of a pass do not depend
on whether `setItem` throws during the best-effort save. -/
theorem fetchSettle_setItem_independent (st : St) (now : Int)
    (res : Except String User) (b gT : Bool) (id : String) :
    (fetchSettle st now res b gT id).1 = (fetchSettle st now res false gT id).1 ∧
    (fetchSettle st now res b gT id).2.1.cachedUsers
      = (fetchSettle st now res false gT id).2.1.cachedUsers ∧
    (fetchSettle st now res b gT id).2.1.lastFetchTime
      = (fetchSettle st now res false gT id).2.1.lastFetchTime := by
  unfold fetchSettle saveUserToStorage
  cases res with
  | ok u => cases b <;> simp
  | error e => cases hfb : (getUserFromStorage gT st.store id).1 <;> simp [hfb]

/-- C8: a throwing `setItem` during best-effort persistence never changes
the outcome of a fetch or an update — the settled result (and for a
fetch, the cache and the freshness clock) are those of the non-throwing
run — and on the success paths the storage failure shows up in the log. -/
theorem storage_persist_failure_swallowed (d : Int) (st : St) (env : FetchEnv)
    (uenv : UpdateEnv) (id : String) (patch : PrefsPatch) :
    (∀ b : Bool,
      (getUserByIdStep d st { env with setItemThrows := b } id).result
        = (getUserByIdStep d st { env with setItemThrows := false } id).result ∧
      (getUserByIdStep d st { env with setItemThrows := b } id).state.cachedUsers
        = (getUserByIdStep d st
            { env with setItemThrows := false } id).state.cachedUsers ∧
      (getUserByIdStep d st { env with setItemThrows := b } id).state.lastFetchTime
        = (getUserByIdStep d st
            { env with setItemThrows := false } id).state.lastFetchTime) ∧
    (∀ user, st.fetchInProgress = false →
      (List.lookup id st.cachedUsers = none ∨
        ¬(env.now - st.lastFetchTime < d)) →
      env.getResult = .ok user →
      LogEvent.storageSaveFailed
        ∈ (getUserByIdStep d st { env with setItemThrows := true } id).logs) ∧
    (∀ b : Bool,
      (updateUserPreferencesStep d st
          { uenv with postSetItemThrows := b } id patch).result
        = (updateUserPreferencesStep d st
            { uenv with postSetItemThrows := false } id patch).result) ∧
    (∀ user serverUser,
      (getUserByIdStep d st uenv.fetchEnv id).result = .ok user →
      uenv.postResult = .ok serverUser →
      LogEvent.storageSaveFailed
        ∈ (updateUserPreferencesStep d st
            { uenv with postSetItemThrows := true } id patch).logs) := by
  refine ⟨?_, ?_, ?_, ?_⟩
  · intro b
    have hs := fetchSettle_setItem_independent st env.now env.getResult b
      env.getItemThrows id
    unfold getUserByIdStep fetchBody
    dsimp only
    cases hl : List.lookup id st.cachedUsers with
    | some u =>
      by_cases hfresh : env.now - st.lastFetchTime < d
      · simp [hfresh]
      · simp only [hfresh, ite_false]
        cases hp : st.fetchInProgress
        · simp only [Bool.false_eq_true, if_false]
          exact ⟨by rw [hs.1], hs.2.1, hs.2.2⟩
        · simp
    | none =>
      cases hp : st.fetchInProgress
      · simp only [Bool.false_eq_true, if_false]
        exact ⟨by rw [hs.1], hs.2.1, hs.2.2⟩
      · simp
  · intro user hp hmiss hok
    have hmiss' : List.lookup id st.cachedUsers = none ∨
        ¬(({ env with setItemThrows := true } : FetchEnv).now
          - st.lastFetchTime < d) := hmiss
    rw [getUserByIdStep_miss d st { env with setItemThrows := true } id hmiss']
    unfold fetchBody
    rw [hp]
    dsimp only
    rw [hok]
    unfold fetchSettle saveUserToStorage
    simp
  · intro b
    unfold updateUserPreferencesStep
    dsimp only
    cases hr : (getUserByIdStep d st uenv.fetchEnv id).result with
    | retryLater => simp
    | error e => simp
    | ok user =>
      cases hpost : uenv.postResult with
      | error e => simp
      | ok serverUser => simp
  · intro user serverUser hfetch hpost
    unfold updateUserPreferencesStep
    dsimp only
    rw [hfetch, hpost]
    unfold saveUserToStorage
    simp

/-- C8 witness: a concrete fetch whose `setItem` throws still resolves
with the fetched entity and logs the storage failure. -/
theorem storage_persist_failure_swallowed_witness :
    (getUserByIdStep 60000 ⟨[], 0, false, []⟩
        ⟨5, 9, .ok ⟨"u1", "N", "e@g.c", none, none⟩, true, false⟩
        "u1").result
      = (getUserByIdStep 60000 ⟨[], 0, false, []⟩
          ⟨5, 9, .ok ⟨"u1", "N", "e@g.c", none, none⟩, false, false⟩
          "u1").result ∧
    LogEvent.storageSaveFailed
      ∈ (getUserByIdStep 60000 ⟨[], 0, false, []⟩
          ⟨5, 9, .ok ⟨"u1", "N", "e@g.c", none, none⟩, true, false⟩
          "u1").logs :=
  ⟨((storage_persist_failure_swallowed 60000 ⟨[], 0, false, []⟩
      ⟨5, 9, .ok ⟨"u1", "N", "e@g.c", none, none⟩, false, false⟩
      ⟨⟨5, 9, .error "x", false, false⟩, .error "x", false⟩
      "u1" ⟨none, none, none⟩).1 true).1,
   (storage_persist_failure_swallowed 60000 ⟨[], 0, false, []⟩
      ⟨5, 9, .ok ⟨"u1", "N", "e@g.c", none, none⟩, false, false⟩
      ⟨⟨5, 9, .error "x", false, false⟩, .error "x", false⟩
      "u1" ⟨none, none, none⟩).2.1
      ⟨"u1", "N", "e@g.c", none, none⟩ rfl (Or.inl rfl) rfl⟩

/-- C9 counterexample: the claim reads the domain as the substring after
the FIRST `@`.  For the address `a@gmail.com@x` that substring is
`gmail.com@x`, whose rule value is 2; but the code takes
`split('@')[1] = "gmail.com"` and awards 5.  So the claim's rule
disagrees with the code on this input. -/
theorem emailFactor_after_first_at_counterexample :
    emailFactor "a@gmail.com@x" = .ok 5 ∧
    specDomainRule (specAfterFirstAt "a@gmail.com@x") = 2 ∧
    emailFactor "a@gmail.com@x"
      ≠ .ok (specDomainRule (specAfterFirstAt "a@gmail.com@x")) := by
  refine ⟨rfl, rfl, ?_⟩
  intro h
  have h5 : (Except.ok (5 : Int) : Except Unit Int) = Except.ok 2 := h
  have : (5 : Int) = 2 := by injection h5
  omega

/-- C9 (amended): for every contact address containing `@` — so that
splitting on `@` yields a second segment — with that segment (the text
strictly between the first `@` and the next `@`, if any) non-empty, the
contact-address component of the score is the rule applied to that
segment: +5 for `gmail.com`, +3 for `hotmail.com`, else +10 for a
`.edu` suffix, else +15 for a `.gov` suffix, else +2. -/
theorem emailFactor_split_segment (email dseg : String)
    (hseg : (jsSplit '@' email).get? 1 = some dseg) (hne : dseg ≠ "") :
    emailFactor email = .ok (specDomainRule dseg) := by
  have he : email ≠ "" := by
    intro h
    subst h
    simp [jsSplit, splitCharList] at hseg
  unfold emailFactor
  rw [if_neg he, hseg]
  dsimp only
  unfold specDomainRule
  split_ifs <;> rfl

/-- C9 witness: the education-domain rule on a single-`@` address. -/
theorem emailFactor_split_segment_witness :
    emailFactor "ta@cs.mit.edu" = .ok (specDomainRule "cs.mit.edu") ∧
    specDomainRule "cs.mit.edu" = 10 :=
  ⟨emailFactor_split_segment "ta@cs.mit.edu" "cs.mit.edu" rfl (by decide),
   rfl⟩

/-- C10: `calculateUserScore` is not total at the public interface: for
a non-null user whose contact address is non-empty but contains no `@`,
`split('@')[1]` is undefined, the two equality tests pass it by, and the
`.endsWith` suffix test throws — the call returns no number. -/
theorem calculateUserScore_not_total :
    ("nodomain" : String).data ≠ [] ∧
    ("nodomain" : String).data.contains '@' = false ∧
    calculateUserScore 0
      (some ⟨"u1", "", "nodomain", none, none⟩) = .error () := by
  refine ⟨by decide, by decide, rfl⟩

end UserSvc
